import Mathlib

/-!
Verification development for the Audio Loss & Distortion Monitor.

The monitoring loop of `src/Python/monitor_audio.py` (mirrored by
`src/testtest.py` and, for the loss track, `src/monitor_audio.py`) is
embedded as a step function over an explicit state record.  Audio levels
and wall-clock times are modelled as rationals, counters as naturals.
The helper functions of `src/audio_utils.py` (`rms_to_dbfs`,
`clean_logs`, `_format_line`, `send_email`) are embedded directly.
-/

/-! ## Thresholds and events (src/config.py, src/Python/monitor_audio.py) -/

/-- Threshold configuration, from `src/config.py` and the CLI defaults of
`src/monitor_audio.py`. -/
structure Config where
  silenceThresholdDb : ℚ
  clearThresholdDb : ℚ
  silenceLimit : Nat
  clearLimit : Nat
  reminderInterval : ℚ
deriving Repr, DecidableEq

/-- Events emitted by one tick of the monitoring loop (the emails sent by
`main` in `src/Python/monitor_audio.py`). -/
inductive Event where
  | lossAlert
  | lossClear (durationStr : String)
  | lossReminder
  | distAlert
deriving Repr, DecidableEq, BEq

/-- Duration formatting for the CLEAR email body
(`src/Python/monitor_audio.py` lines 322-331: `divmod` chains on the
integral number of seconds, then the `days > 0` / `hours > 0` / else
selection). -/
def formatDuration (total : Nat) : String :=
  let days := total / 86400
  let rem1 := total % 86400
  let hours := rem1 / 3600
  let rem2 := rem1 % 3600
  let minutes := rem2 / 60
  let seconds := rem2 % 60
  if 0 < days then
    toString days ++ "d " ++ toString hours ++ "h " ++ toString minutes ++ "m "
      ++ toString seconds ++ "s"
  else if 0 < hours then
    toString hours ++ "h " ++ toString minutes ++ "m " ++ toString seconds ++ "s"
  else
    toString minutes ++ "m " ++ toString seconds ++ "s"

/-! ## Loss track state machine -/

/-- Mutable state of the loss track
(`silent_count`, `clear_count`, `alarm_active`, `last_alert_time_loss`,
`alert_start_loss` in `main` of `src/Python/monitor_audio.py`). -/
structure LossState where
  silentCount : Nat
  clearCount : Nat
  alarmActive : Bool
  lastAlertTime : ℚ
  alertStart : Option ℚ
deriving Repr, DecidableEq

/-- First half of a loss-track tick: the `AUDIO LOSS ALERT` block
(`src/Python/monitor_audio.py` lines 288-314).
`is_silent` is `db < SILENCE_THRESHOLD_DB`. -/
def lossAlertPhase (cfg : Config) (s : LossState) (db now : ℚ) :
    LossState × List Event :=
  if s.alarmActive = false ∧ db < cfg.silenceThresholdDb then
    let cnt := s.silentCount + 1
    if cfg.silenceLimit ≤ cnt then
      ({ s with silentCount := 0, alarmActive := true,
                alertStart := some now, lastAlertTime := now },
       [Event.lossAlert])
    else
      ({ s with silentCount := cnt }, [])
  else if ¬ db < cfg.silenceThresholdDb then
    ({ s with silentCount := 0 }, [])
  else
    (s, [])

/-- Second half of a loss-track tick: the `AUDIO RESTORED` /
`AUDIO LOSS REMINDER` blocks (`src/Python/monitor_audio.py` lines
316-363).  `is_clear` is `db >= CLEAR_THRESHOLD_DB`; note the reminder
branch is an `elif` of the clear branch. -/
def clearReminderPhase (cfg : Config) (s : LossState) (db now : ℚ) :
    LossState × List Event :=
  if s.alarmActive = true ∧ cfg.clearThresholdDb ≤ db then
    let cnt := s.clearCount + 1
    if cfg.clearLimit ≤ cnt then
      let dur : ℚ := now - (s.alertStart.getD now)
      ({ s with alarmActive := false, silentCount := 0, clearCount := 0,
                lastAlertTime := 0, alertStart := none },
       [Event.lossClear (formatDuration (⌊dur⌋.toNat))])
    else
      ({ s with clearCount := cnt }, [])
  else if s.alarmActive = true ∧ cfg.reminderInterval ≤ now - s.lastAlertTime then
    ({ s with lastAlertTime := now }, [Event.lossReminder])
  else
    (s, [])

/-- One full loss-track tick: alert block, then clear/reminder block,
executed sequentially on the same sample exactly as in the source. -/
def lossStep (cfg : Config) (s : LossState) (db now : ℚ) :
    LossState × List Event :=
  let p1 := lossAlertPhase cfg s db now
  let p2 := clearReminderPhase cfg p1.1 db now
  (p2.1, p1.2 ++ p2.2)

/-- Run the loss track over a sequence of `(db, now)` ticks. -/
def lossRun (cfg : Config) (s : LossState) : List (ℚ × ℚ) → LossState × List Event
  | [] => (s, [])
  | t :: rest =>
    let p := lossStep cfg s t.1 t.2
    let r := lossRun cfg p.1 rest
    (r.1, p.2 ++ r.2)

/-! ## Distortion track state machine -/

/-- Mutable state of the distortion track (`distortion_count`,
`distortion_active` in `src/Python/monitor_audio.py`). -/
structure DistState where
  distortionCount : Nat
  distortionActive : Bool
deriving Repr, DecidableEq

/-- One distortion-track tick: the `DISTORTION ALERT` block
(`src/Python/monitor_audio.py` lines 365-387).  `is_distorted` is
`db > DISTORTION_THRESHOLD_DB`; the fixed firing count is 3; note the
counter is reset only in the two branches shown (on firing, and on a
non-distorted sample while the distortion alarm is active). -/
def distStep (thr : ℚ) (s : DistState) (db : ℚ) : DistState × List Event :=
  if s.distortionActive = false ∧ thr < db then
    let cnt := s.distortionCount + 1
    if 3 ≤ cnt then
      ({ distortionCount := 0, distortionActive := true }, [Event.distAlert])
    else
      ({ s with distortionCount := cnt }, [])
  else if ¬ thr < db ∧ s.distortionActive = true then
    ({ distortionCount := 0, distortionActive := false }, [])
  else
    (s, [])

/-- Run the distortion track over a sequence of samples. -/
def distRun (thr : ℚ) (s : DistState) : List ℚ → DistState × List Event
  | [] => (s, [])
  | db :: rest =>
    let p := distStep thr s db
    let r := distRun thr p.1 rest
    (r.1, p.2 ++ r.2)

/-- Decidable check that a sample list contains three consecutive samples
strictly above the threshold (the firing condition the specification
describes for the distortion track). -/
def hasThreeConsecAbove (thr : ℚ) : List ℚ → Bool
  | a :: b :: c :: rest =>
    (decide (thr < a) && decide (thr < b) && decide (thr < c))
      || hasThreeConsecAbove thr (b :: c :: rest)
  | _ => false

/-! ## Bounded dBFS history (src/Python/monitor_audio.py lines 265-279) -/

/-- History capacity (`MAX_HISTORY = 120`). -/
def MAX_HISTORY : Nat := 120

/-- One history update: append the new sample and timestamp, then evict
the oldest pair when the capacity is exceeded (`db_history.append`,
`timestamp_history.append`, `pop(0)` on both when
`len(db_history) > MAX_HISTORY`). -/
def pushHistory (dbHistory tsHistory : List ℚ) (db ts : ℚ) :
    List ℚ × List ℚ :=
  let dbH := dbHistory ++ [db]
  let tsH := tsHistory ++ [ts]
  if MAX_HISTORY < dbH.length then (dbH.drop 1, tsH.drop 1) else (dbH, tsH)

/-- Fold `pushHistory` over a tick sequence from a given pair of
histories. -/
def historyRunFrom (acc : List ℚ × List ℚ) : List (ℚ × ℚ) → List ℚ × List ℚ
  | [] => acc
  | t :: rest => historyRunFrom (pushHistory acc.1 acc.2 t.1 t.2) rest

/-- Histories after processing a tick sequence from the initial empty
histories (`db_history, timestamp_history = [], []`). -/
def historyRun (ticks : List (ℚ × ℚ)) : List ℚ × List ℚ :=
  historyRunFrom ([], []) ticks

/-! ## RMS to dBFS conversion (src/audio_utils.py lines 78-82) -/

/-- Conversion of an RMS value to dBFS: `-80.0` for `rms <= 0`, else
`20 * log10(rms)`.  The real-valued mathematical function computed by
`rms_to_dbfs` in `src/audio_utils.py`. -/
noncomputable def rms_to_dbfs (rms : ℝ) : ℝ :=
  if rms ≤ 0 then -80 else 20 * Real.logb 10 rms

/-! ## Python string helpers used by clean_logs and the email formatter -/

/-- Line-boundary characters recognised by Python `str.splitlines`. -/
def isLineBreak (c : Char) : Bool :=
  c == '\n' || c == '\r' || c == '\x0b' || c == '\x0c'
    || c == '\x1c' || c == '\x1d' || c == '\x1e' || c == '\x85'
    || c == '\u2028' || c == '\u2029'

/-- Whitespace characters stripped by Python `str.strip()` (ASCII
whitespace, the line boundaries, and the common Unicode spaces). -/
def isPySpace (c : Char) : Bool :=
  c == ' ' || c == '\t' || isLineBreak c || c == '\xa0'

/-- Python `str.strip()` on a character list: drop whitespace from both
ends. -/
def pyStrip (l : List Char) : List Char :=
  ((l.dropWhile isPySpace).reverse.dropWhile isPySpace).reverse

/-- Prepend a character to the first line of a split result (starting a
new line when there is none). -/
def consHead (c : Char) : List (List Char) → List (List Char)
  | [] => [[c]]
  | l :: ls => (c :: l) :: ls

/-- Python `str.splitlines()` on a character list: split at every line
boundary, treating `"\r\n"` as a single boundary, with no trailing empty
line for a trailing boundary and `[]` for the empty string. -/
def splitLinesCh : List Char → List (List Char)
  | [] => []
  | '\r' :: '\n' :: rest => [] :: splitLinesCh rest
  | c :: rest =>
    if isLineBreak c then
      [] :: splitLinesCh rest
    else
      consHead c (splitLinesCh rest)

/-- Python `"\n".join(...)` on character lists. -/
def joinNL : List (List Char) → List Char
  | [] => []
  | [l] => l
  | l :: ls => l ++ '\n' :: joinNL ls

/-- Core of `clean_logs` (`src/audio_utils.py` lines 125-128): strip each
line, drop empty lines, keep the last 400, join with newlines. -/
def cleanCh (cs : List Char) : List Char :=
  let lines := ((splitLinesCh cs).map pyStrip).filter (fun l => !l.isEmpty)
  joinNL (lines.drop (lines.length - 400))

/-- The function `clean_logs` of `src/audio_utils.py`. -/
def clean_logs (s : String) : String :=
  String.mk (cleanCh s.data)

/-- Python `str.strip()` on a `String`. -/
def pyStripStr (s : String) : String :=
  String.mk (pyStrip s.data)

/-- Python `str.splitlines()` on a `String`. -/
def pySplitLinesStr (s : String) : List String :=
  (splitLinesCh s.data).map String.mk

/-! ## Email body table rendering (src/audio_utils.py lines 192-211 and
317-328) -/

/-- HTML row builders shared by the embedding of `_format_line`. -/
def headlineRow (content : String) : String :=
  "<tr><td colspan=\x272\x27 style=\x27font-weight:bold; background:#f9f9f9;\x27>"
    ++ content ++ "</td></tr>"

/-- Plain row spanning both columns. -/
def spanRow (content : String) : String :=
  "<tr><td colspan=\x272\x27>" ++ content ++ "</td></tr>"

/-- Key/value row with a bold label cell. -/
def labelValueRow (key val : String) : String :=
  "<tr><td style=\x27font-weight:bold;\x27>" ++ key ++ "</td><td>" ++ val
    ++ "</td></tr>"

/-- Python `str.lower()` (character-wise lowering). -/
def lowerStr (s : String) : String :=
  String.mk (s.data.map Char.toLower)

/-- Python `str.startswith(pre)`. -/
def startsWithStr (s pre : String) : Bool :=
  pre.data.isPrefixOf s.data

/-- Python `c in s` for a single character. -/
def containsChar (s : String) (c : Char) : Bool :=
  s.data.contains c

/-- Python `s.split(":", 1)[0]`: the part before the first colon. -/
def beforeColon (s : String) : String :=
  String.mk (s.data.takeWhile (fun c => c != ':'))

/-- Python `s.split(":", 1)[1]`: the part after the first colon. -/
def afterColon (s : String) : String :=
  String.mk ((s.data.dropWhile (fun c => c != ':')).drop 1)

/-- The function `_format_line` of `src/audio_utils.py`: strip the line;
empty lines produce nothing; the line at index 0 becomes a headline row;
lines whose lowercase form starts with `"still silent"` span both
columns; lines containing `:` and not starting with `"http"` split at
the first `:` into a bold key cell and a value cell; everything else
spans both columns. -/
def format_line (line : String) (index : Nat) : String :=
  let line := pyStripStr line
  if line = "" then ""
  else if index = 0 then headlineRow line
  else if startsWithStr (lowerStr line) "still silent" then spanRow line
  else if containsChar line ':' ∧ ¬ startsWithStr (pyStripStr line) "http" then
    labelValueRow (pyStripStr (beforeColon line)) (pyStripStr (afterColon line))
  else spanRow line

/-- The table-rows expression of `send_email`
(`src/audio_utils.py` line 323): format every line of the body with its
index from `enumerate(body.splitlines())`, keeping only lines whose
strip is non-empty, and concatenate. -/
def renderBodyRows (body : String) : String :=
  String.join ((pySplitLinesStr body).enum.filterMap
    (fun p => if pyStripStr p.2 = "" then none else some (format_line p.2 p.1)))

/-! ## Notifier model (send_email of src/audio_utils.py lines 214-404) -/

/-- The persisted failure flag (`last_failed_email.json`): reason and
timestamp of the last connectivity failure. -/
structure FailureFlag where
  reason : String
  timestamp : String
deriving Repr, DecidableEq

/-- Outcome of the connectivity probe
(`requests.get("https://www.google.com", timeout=5)`): the call either
raises an exception carrying an error text, or returns a response with
some HTTP status code (possibly other than 200) without raising. -/
inductive NetCheck where
  | raised (reason : String)
  | status (code : Nat)
deriving Repr, DecidableEq

/-- External-world outcomes for one `send_email` call: the connectivity
probe outcome, the wall-clock string used when writing the flag, the
SMTP outcome of the recovery notice, the SMTP outcomes of the up to
three delivery attempts, and the configured recipient list. -/
structure NetEnv where
  check : NetCheck
  now : String
  noticeSendOk : Bool
  sendAttemptsOk : List Bool
  recipients : List String
deriving Repr, DecidableEq

/-- Mails leaving the notifier, in the order they are sent. -/
inductive Mail where
  | recoveryNotice (prevReason prevTimestamp : String)
  | message (subject body : String)
deriving Repr, DecidableEq

/-- Result of one `send_email` call: the returned boolean, the failure
flag on disk afterwards, and the mails sent in order. -/
structure SendResult where
  success : Bool
  flag : Option FailureFlag
  sentMails : List Mail
deriving Repr, DecidableEq

/-- The function `send_email` of `src/audio_utils.py`.  If the
connectivity probe raises, persist a failure flag and return failure
without sending anything.  Otherwise `internet_ok` is true exactly when
the returned status code is 200; only in that case, if a flag exists,
it is removed and a one-time recovery notice referencing it is
attempted.  On a non-200 response without an exception no flag is
written or removed and no notice is sent.  In both non-raising cases
the function then filters the recipients, builds the message, and
attempts delivery up to three times, returning success on the first
successful attempt.  The failure flag is written only in the
exception branch. -/
def send_email (env : NetEnv) (subject body : String)
    (flag : Option FailureFlag) : SendResult :=
  match env.check with
  | NetCheck.raised reason =>
    { success := false
      flag := some { reason := reason, timestamp := env.now }
      sentMails := [] }
  | NetCheck.status code =>
    let internetOk : Bool := code == 200
    let flagAfter : Option FailureFlag := if internetOk then none else flag
    let noticeMails : List Mail :=
      if internetOk then
        match flag with
        | some prev =>
          if env.noticeSendOk then
            [Mail.recoveryNotice prev.reason prev.timestamp]
          else []
        | none => []
      else []
    let recipients := (env.recipients.map pyStripStr).filter (fun r => r ≠ "")
    if recipients = [] then
      { success := false, flag := flagAfter, sentMails := noticeMails }
    else if (env.sendAttemptsOk.take 3).any id then
      { success := true, flag := flagAfter
        sentMails := noticeMails ++ [Mail.message subject body] }
    else
      { success := false, flag := flagAfter, sentMails := noticeMails }

/-! ## Theorems -/

/-- C7: `rms_to_dbfs` returns `-80` for every `rms ≤ 0` (in particular at
`0` and at negative inputs), equals `0` at `rms = 1`, and is strictly
monotonically increasing on positive inputs. -/
theorem C7_rms_to_dbfs_props :
    (∀ rms : ℝ, rms ≤ 0 → rms_to_dbfs rms = -80) ∧
    rms_to_dbfs 1 = 0 ∧
    (∀ x y : ℝ, 0 < x → x < y → rms_to_dbfs x < rms_to_dbfs y) := by
  refine ⟨fun rms h => by simp [rms_to_dbfs, h], ?_, ?_⟩
  · norm_num [rms_to_dbfs, Real.logb_one]
  · intro x y hx hxy
    have hx0 : ¬ x ≤ 0 := by linarith
    have hy0 : ¬ y ≤ 0 := by linarith
    simp only [rms_to_dbfs, if_neg hx0, if_neg hy0]
    have h10 : (1 : ℝ) < 10 := by norm_num
    have := Real.logb_lt_logb h10 hx hxy
    linarith

/-- C7 witness: the conversion evaluated at `0`, `1` and the strictly
increasing pair `1 < 10`. -/
theorem C7_rms_to_dbfs_props_witness :
    rms_to_dbfs 0 = -80 ∧ rms_to_dbfs 1 = 0 ∧ rms_to_dbfs 1 < rms_to_dbfs 10 :=
  ⟨C7_rms_to_dbfs_props.1 0 le_rfl, C7_rms_to_dbfs_props.2.1,
   C7_rms_to_dbfs_props.2.2 1 10 zero_lt_one (by norm_num)⟩

/-- C5 counterexample: an alarm active for 45 seconds renders as
`"0m 45s"`, so the zero-valued leading minutes unit is not dropped,
contrary to the claim that a duration under 60 seconds renders with no
leading `"0m"` unit. -/
theorem C5_counterexample :
    formatDuration 45 = "0m 45s" ∧ formatDuration 45 ≠ "45s" := by
  exact ⟨by decide, by decide⟩

/-- C5 amended: 3661 seconds renders as `"1h 1m 1s"` and 90 seconds as
`"1m 30s"`; zero-valued units larger than minutes are dropped, but the
minutes unit is always kept, so every duration under 60 seconds renders
as `"0m <n>s"`. -/
theorem C5_duration_formatting (n : Nat) (h : n < 60) :
    formatDuration 3661 = "1h 1m 1s" ∧ formatDuration 90 = "1m 30s" ∧
    formatDuration n = "0m " ++ toString n ++ "s" := by
  refine ⟨by decide, by decide, ?_⟩
  have h1 : n / 86400 = 0 := Nat.div_eq_of_lt (by omega)
  have h2 : n % 86400 = n := Nat.mod_eq_of_lt (by omega)
  have h3 : n / 3600 = 0 := Nat.div_eq_of_lt (by omega)
  have h4 : n % 3600 = n := Nat.mod_eq_of_lt (by omega)
  have h5 : n / 60 = 0 := Nat.div_eq_of_lt (by omega)
  have h6 : n % 60 = n := Nat.mod_eq_of_lt (by omega)
  simp only [formatDuration, h1, h2, h3, h4, h5, h6, lt_self_iff_false,
    if_false]
  rfl

/-- C5 witness for the amended statement, at 59 seconds. -/
theorem C5_duration_formatting_witness :
    formatDuration 3661 = "1h 1m 1s" ∧ formatDuration 90 = "1m 30s" ∧
    formatDuration 59 = "0m " ++ toString 59 ++ "s" :=
  C5_duration_formatting 59 (by decide)

/-- C2 counterexample: the sample sequence `[1, -1, 1, -1, 1]` against
threshold `0` contains no three consecutive above-threshold samples, yet
the distortion track (started in the non-alarmed state) fires an ALERT
on it, because a sample at or below the threshold while not alarmed does
not reset the count. -/
theorem C2_counterexample :
    hasThreeConsecAbove 0 [1, -1, 1, -1, 1] = false ∧
    (distRun 0 ⟨0, false⟩ [1, -1, 1, -1, 1]).2 = [Event.distAlert] ∧
    (distRun 0 ⟨0, false⟩ [1, -1, 1, -1, 1]).1.distortionActive = true := by
  refine ⟨by decide, by decide, by decide⟩

/-- C2 amended: while not alarmed, each sample above the threshold
increments the count and the ALERT fires exactly when the count reaches
3 (the count then restarting at 0); a sample at or below the threshold
while not alarmed leaves both the count and the state unchanged, so the
counted samples need not be consecutive; once alarmed, the first sample
at or below the threshold immediately clears the alarm and resets the
count, with no debounce on the clear side, and above-threshold samples
while alarmed change nothing. -/
theorem C2_distortion_step (thr : ℚ) (s : DistState) (db : ℚ) :
    (s.distortionActive = false → thr < db → s.distortionCount + 1 < 3 →
      distStep thr s db = ({ s with distortionCount := s.distortionCount + 1 }, [])) ∧
    (s.distortionActive = false → thr < db → 3 ≤ s.distortionCount + 1 →
      distStep thr s db = (⟨0, true⟩, [Event.distAlert])) ∧
    (s.distortionActive = false → ¬ thr < db → distStep thr s db = (s, [])) ∧
    (s.distortionActive = true → ¬ thr < db → distStep thr s db = (⟨0, false⟩, [])) ∧
    (s.distortionActive = true → thr < db → distStep thr s db = (s, [])) := by
  refine ⟨?_, ?_, ?_, ?_, ?_⟩
  · intro h1 h2 h3
    simp_all [distStep]
    omega
  · intro h1 h2 h3
    simp_all [distStep]
  · intro h1 h2
    simp_all [distStep]
  · intro h1 h2
    simp_all [distStep]
  · intro h1 h2
    simp_all [distStep]

/-- C2 witness: all five cases of the amended characterisation evaluated
at concrete states and samples against threshold `0`. -/
theorem C2_distortion_step_witness :
    distStep 0 ⟨0, false⟩ 1 = (⟨1, false⟩, []) ∧
    distStep 0 ⟨2, false⟩ 1 = (⟨0, true⟩, [Event.distAlert]) ∧
    distStep 0 ⟨1, false⟩ (-1) = (⟨1, false⟩, []) ∧
    distStep 0 ⟨2, true⟩ (-1) = (⟨0, false⟩, []) ∧
    distStep 0 ⟨2, true⟩ 1 = (⟨2, true⟩, []) :=
  ⟨(C2_distortion_step 0 ⟨0, false⟩ 1).1 rfl (by norm_num) (by norm_num),
   (C2_distortion_step 0 ⟨2, false⟩ 1).2.1 rfl (by norm_num) (by norm_num),
   (C2_distortion_step 0 ⟨1, false⟩ (-1)).2.2.1 rfl (by norm_num),
   (C2_distortion_step 0 ⟨2, true⟩ (-1)).2.2.2.1 rfl (by norm_num),
   (C2_distortion_step 0 ⟨2, true⟩ 1).2.2.2.2 rfl (by norm_num)⟩

/-- C3 counterexample: with the default configuration
(`reminder_interval = 300`, `clear_limit = 2`), in the alarmed state with
the last alert at time 0 and clear count 0, a clear-level sample
(`-10 ≥ -40`) arriving at time 300 — at the 300-second mark, with the
clear count (which becomes 1) still below `clear_limit` — fires no
REMINDER at all, because the reminder branch is only reached on
non-clear samples. -/
theorem C3_counterexample :
    (lossStep ⟨-55, -40, 3, 2, 300⟩ ⟨0, 0, true, 0, some 0⟩ (-10) 300).2 = [] ∧
    (lossStep ⟨-55, -40, 3, 2, 300⟩ ⟨0, 0, true, 0, some 0⟩ (-10) 300).1.clearCount = 1 ∧
    (300 : ℚ) - 0 ≥ 300 ∧ (1 : Nat) < 2 := by
  refine ⟨by decide, by decide, by norm_num, by decide⟩

/-- C3 amended: while the loss alarm is active, no REMINDER fires before
`reminder_interval` seconds have elapsed since the last alert or
reminder; on a tick whose sample is below `clear_threshold` with the
interval elapsed, exactly one REMINDER fires, leaving the alarm state
and the clear counter unchanged and resetting the reminder timer to the
tick time; a tick whose sample is at or above `clear_threshold` never
fires a REMINDER, even past the mark. -/
theorem C3_reminder_timing (cfg : Config) (s : LossState) (db now : ℚ)
    (hAct : s.alarmActive = true) :
    (now - s.lastAlertTime < cfg.reminderInterval →
       Event.lossReminder ∉ (lossStep cfg s db now).2) ∧
    (¬ cfg.clearThresholdDb ≤ db →
     cfg.reminderInterval ≤ now - s.lastAlertTime →
       (lossStep cfg s db now).2 = [Event.lossReminder] ∧
       (lossStep cfg s db now).1.alarmActive = true ∧
       (lossStep cfg s db now).1.clearCount = s.clearCount ∧
       (lossStep cfg s db now).1.lastAlertTime = now) ∧
    (cfg.clearThresholdDb ≤ db →
       Event.lossReminder ∉ (lossStep cfg s db now).2) := by
  refine ⟨?_, ?_, ?_⟩
  · intro hlt
    simp only [lossStep, lossAlertPhase, clearReminderPhase, hAct]
    split_ifs <;> simp_all
    · linarith
    · linarith
  · intro hnc hge
    simp only [lossStep, lossAlertPhase, clearReminderPhase, hAct]
    split_ifs <;> simp_all
  · intro hc
    simp only [lossStep, lossAlertPhase, clearReminderPhase, hAct]
    split_ifs <;> simp_all

/-- C3 witness for the amended statement: default configuration, alarmed
with clear count 1 and last alert at time 0, a silent sample at time
300 fires exactly one REMINDER. -/
theorem C3_reminder_timing_witness :
    (lossStep ⟨-55, -40, 3, 2, 300⟩ ⟨0, 1, true, 0, some 0⟩ (-60) 300).2 =
      [Event.lossReminder] ∧
    (lossStep ⟨-55, -40, 3, 2, 300⟩ ⟨0, 1, true, 0, some 0⟩ (-60) 300).1.alarmActive = true ∧
    (lossStep ⟨-55, -40, 3, 2, 300⟩ ⟨0, 1, true, 0, some 0⟩ (-60) 300).1.clearCount = 1 ∧
    (lossStep ⟨-55, -40, 3, 2, 300⟩ ⟨0, 1, true, 0, some 0⟩ (-60) 300).1.lastAlertTime = 300 :=
  (C3_reminder_timing ⟨-55, -40, 3, 2, 300⟩ ⟨0, 1, true, 0, some 0⟩ (-60) 300 rfl).2.1
    (by norm_num) (by norm_num)

/-- C6: a sample in the hysteresis gap (`silence_threshold ≤ level <
clear_threshold`) does not increment the silence counter (it resets it),
leaves the clear counter unchanged, causes no state transition, and
produces neither an ALERT nor a CLEAR event (at most a REMINDER can fire
on such a tick while alarmed). -/
theorem C6_hysteresis (cfg : Config) (s : LossState) (db now : ℚ)
    (h1 : cfg.silenceThresholdDb ≤ db) (h2 : db < cfg.clearThresholdDb) :
    (lossStep cfg s db now).1.silentCount ≤ s.silentCount ∧
    (lossStep cfg s db now).1.clearCount = s.clearCount ∧
    (lossStep cfg s db now).1.alarmActive = s.alarmActive ∧
    ((lossStep cfg s db now).2 = [] ∨
     (lossStep cfg s db now).2 = [Event.lossReminder]) := by
  have hns : ¬ db < cfg.silenceThresholdDb := not_lt.mpr h1
  have hnc : ¬ cfg.clearThresholdDb ≤ db := not_le.mpr h2
  simp only [lossStep, lossAlertPhase, clearReminderPhase, hns, hnc]
  split_ifs <;> simp_all

/-- C6 witness: default configuration, gap sample `-45` between `-55`
and `-40`, from the normal state with a partial silence count. -/
theorem C6_hysteresis_witness :
    (lossStep ⟨-55, -40, 3, 2, 300⟩ ⟨2, 0, false, 0, none⟩ (-45) 10).1.silentCount ≤ 2 ∧
    (lossStep ⟨-55, -40, 3, 2, 300⟩ ⟨2, 0, false, 0, none⟩ (-45) 10).1.clearCount = 0 ∧
    (lossStep ⟨-55, -40, 3, 2, 300⟩ ⟨2, 0, false, 0, none⟩ (-45) 10).1.alarmActive = false ∧
    ((lossStep ⟨-55, -40, 3, 2, 300⟩ ⟨2, 0, false, 0, none⟩ (-45) 10).2 = [] ∨
     (lossStep ⟨-55, -40, 3, 2, 300⟩ ⟨2, 0, false, 0, none⟩ (-45) 10).2 = [Event.lossReminder]) :=
  C6_hysteresis ⟨-55, -40, 3, 2, 300⟩ ⟨2, 0, false, 0, none⟩ (-45) 10
    (by norm_num) (by norm_num)

/-- Events of a run over concatenated tick lists decompose, with the
second part run from the state the first part reaches. -/
theorem lossRun_append (cfg : Config) (s : LossState) (l1 l2 : List (ℚ × ℚ)) :
    lossRun cfg s (l1 ++ l2) =
      ((lossRun cfg (lossRun cfg s l1).1 l2).1,
       (lossRun cfg s l1).2 ++ (lossRun cfg (lossRun cfg s l1).1 l2).2) := by
  induction l1 generalizing s with
  | nil => simp [lossRun]
  | cons t rest ih =>
    simp only [List.cons_append, lossRun, List.append_eq]
    rw [ih]
    simp [List.append_assoc]

/-- Running the loss track from a non-alarmed state over silent samples
that do not yet reach the silence limit just accumulates the counter and
emits nothing. -/
theorem lossRun_all_silent (cfg : Config) (ticks : List (ℚ × ℚ))
    (s : LossState) (hsil : ∀ t ∈ ticks, t.1 < cfg.silenceThresholdDb)
    (hAct : s.alarmActive = false)
    (hcnt : s.silentCount + ticks.length < cfg.silenceLimit) :
    lossRun cfg s ticks =
      ({ s with silentCount := s.silentCount + ticks.length }, []) := by
  induction ticks generalizing s with
  | nil => simp [lossRun]
  | cons t rest ih =>
    have ht : t.1 < cfg.silenceThresholdDb := hsil t (List.mem_cons_self t rest)
    have hlim : ¬ cfg.silenceLimit ≤ s.silentCount + 1 := by
      simp only [List.length_cons] at hcnt
      omega
    have hstep : lossStep cfg s t.1 t.2 =
        ({ s with silentCount := s.silentCount + 1 }, []) := by
      simp [lossStep, lossAlertPhase, clearReminderPhase, hAct, ht, hlim]
    have harith : ({ s with silentCount := s.silentCount + 1 } :
        LossState).silentCount + rest.length < cfg.silenceLimit := by
      simp only [List.length_cons] at hcnt
      simp only []
      omega
    have hrest := ih { s with silentCount := s.silentCount + 1 }
      (fun x hx => hsil x (List.mem_cons_of_mem t hx)) hAct harith
    simp only [lossRun, hstep, hrest, List.nil_append]
    congr 1
    simp only [List.length_cons]
    congr 1
    omega

/-- C1: from a non-alarmed state with counter 0, under any gapped
threshold configuration with `silence_limit ≥ 1`, feeding
`silence_limit - 1` below-threshold samples followed by one sample at or
above the silence threshold fires nothing and resets the counter to 0,
while feeding exactly `silence_limit` below-threshold samples fires
exactly one ALERT and leaves the loss track in the alarmed state. -/
theorem C1_loss_debounce (cfg : Config)
    (hlim : 1 ≤ cfg.silenceLimit)
    (hgap : cfg.silenceThresholdDb < cfg.clearThresholdDb)
    (s : LossState) (hAct : s.alarmActive = false) (hcnt : s.silentCount = 0)
    (pre : List (ℚ × ℚ)) (hpre : ∀ t ∈ pre, t.1 < cfg.silenceThresholdDb)
    (hprelen : pre.length = cfg.silenceLimit - 1)
    (above : ℚ × ℚ) (habove : cfg.silenceThresholdDb ≤ above.1)
    (full : List (ℚ × ℚ)) (hfull : ∀ t ∈ full, t.1 < cfg.silenceThresholdDb)
    (hfulllen : full.length = cfg.silenceLimit) :
    ((lossRun cfg s (pre ++ [above])).2 = [] ∧
     (lossRun cfg s (pre ++ [above])).1.alarmActive = false ∧
     (lossRun cfg s (pre ++ [above])).1.silentCount = 0) ∧
    ((lossRun cfg s full).2.count Event.lossAlert = 1 ∧
     (lossRun cfg s full).1.alarmActive = true) := by
  constructor
  · have hpreRun := lossRun_all_silent cfg pre s hpre hAct
      (by rw [hcnt, hprelen]; omega)
    have hna : ¬ above.1 < cfg.silenceThresholdDb := not_lt.mpr habove
    have hlast : ∀ st : LossState, st.alarmActive = false →
        lossStep cfg st above.1 above.2 = ({ st with silentCount := 0 }, []) := by
      intro st hst
      simp [lossStep, lossAlertPhase, clearReminderPhase, hna, hst]
    rw [lossRun_append, hpreRun]
    simp only [lossRun]
    rw [hlast { s with silentCount := s.silentCount + pre.length } hAct]
    simp [hAct]
  · rcases List.eq_nil_or_concat full with hnil | ⟨init, last, heq⟩
    · rw [hnil] at hfulllen
      simp at hfulllen
      omega
    · subst heq
      have hinitlen : init.length = cfg.silenceLimit - 1 := by
        simp only [List.concat_eq_append, List.length_append,
          List.length_singleton] at hfulllen
        omega
      have hinit : ∀ t ∈ init, t.1 < cfg.silenceThresholdDb := fun t ht =>
        hfull t (by simp [List.concat_eq_append]; exact Or.inl ht)
      have hlastSil : last.1 < cfg.silenceThresholdDb :=
        hfull last (by simp [List.concat_eq_append])
      have hnc : ¬ cfg.clearThresholdDb ≤ last.1 :=
        not_le.mpr (lt_trans hlastSil hgap)
      have hpreRun := lossRun_all_silent cfg init s hinit hAct
        (by rw [hcnt, hinitlen]; omega)
      have hfire : cfg.silenceLimit ≤ s.silentCount + init.length + 1 := by
        rw [hcnt, hinitlen]
        omega
      rw [List.concat_eq_append, lossRun_append, hpreRun]
      by_cases hri : cfg.reminderInterval ≤ 0
      · have hstep : lossStep cfg
            { s with silentCount := s.silentCount + init.length } last.1 last.2 =
            ({ s with silentCount := 0, clearCount := s.clearCount,
                      alarmActive := true, lastAlertTime := last.2,
                      alertStart := some last.2 },
             [Event.lossAlert, Event.lossReminder]) := by
          simp [lossStep, lossAlertPhase, clearReminderPhase, hAct, hlastSil,
            hfire, hnc, hri, sub_self]
        simp only [lossRun, hstep]
        refine ⟨?_, by simp⟩
        simp only [List.append_nil, List.nil_append, List.count_cons,
          List.count_nil]
        decide
      · have hstep : lossStep cfg
            { s with silentCount := s.silentCount + init.length } last.1 last.2 =
            ({ s with silentCount := 0, clearCount := s.clearCount,
                      alarmActive := true, lastAlertTime := last.2,
                      alertStart := some last.2 },
             [Event.lossAlert]) := by
          simp [lossStep, lossAlertPhase, clearReminderPhase, hAct, hlastSil,
            hfire, hnc, hri, sub_self]
        simp only [lossRun, hstep]
        refine ⟨?_, by simp⟩
        simp only [List.append_nil, List.nil_append, List.count_cons,
          List.count_nil]
        decide

/-- C1 witness: default thresholds, two silent samples then a loud one
fire nothing; three consecutive silent samples fire exactly one ALERT. -/
theorem C1_loss_debounce_witness :
    ((lossRun ⟨-55, -40, 3, 2, 300⟩ ⟨0, 0, false, 0, none⟩
        ([(-60, 0), (-60, 10)] ++ [(-30, 20)])).2 = [] ∧
     (lossRun ⟨-55, -40, 3, 2, 300⟩ ⟨0, 0, false, 0, none⟩
        ([(-60, 0), (-60, 10)] ++ [(-30, 20)])).1.alarmActive = false ∧
     (lossRun ⟨-55, -40, 3, 2, 300⟩ ⟨0, 0, false, 0, none⟩
        ([(-60, 0), (-60, 10)] ++ [(-30, 20)])).1.silentCount = 0) ∧
    ((lossRun ⟨-55, -40, 3, 2, 300⟩ ⟨0, 0, false, 0, none⟩
        [(-60, 0), (-60, 10), (-60, 20)]).2.count Event.lossAlert = 1 ∧
     (lossRun ⟨-55, -40, 3, 2, 300⟩ ⟨0, 0, false, 0, none⟩
        [(-60, 0), (-60, 10), (-60, 20)]).1.alarmActive = true) :=
  C1_loss_debounce ⟨-55, -40, 3, 2, 300⟩ (by decide) (by norm_num)
    ⟨0, 0, false, 0, none⟩ rfl rfl
    [(-60, 0), (-60, 10)] (by decide) rfl
    (-30, 20) (by norm_num)
    [(-60, 0), (-60, 10), (-60, 20)] (by decide) rfl

/-- Shifting a one-element eviction through an appended tail: dropping
the head before appending more samples is the same as dropping one more
element from the full concatenation. -/
theorem drop_shift_eq {α : Type} (u : List α) (a : α) (v : List α)
    (hu : u.length = MAX_HISTORY) :
    ((u ++ [a]).drop 1 ++ v).drop
        (((u ++ [a]).drop 1).length + v.length - MAX_HISTORY) =
      (u ++ a :: v).drop (u.length + (v.length + 1) - MAX_HISTORY) := by
  have h1 : ((u ++ [a]).drop 1).length = MAX_HISTORY := by
    simp [List.length_drop, List.length_append, hu]
  rw [h1, ← @List.drop_append_of_le_length _ (u ++ [a]) v 1 (by simp),
    List.drop_drop]
  have h2 : (u ++ [a]) ++ v = u ++ a :: v := by
    simp [List.append_assoc]
  rw [h2]
  congr 1
  omega

/-- Closed form of the history fold: starting from equal-length histories
within capacity, the result is the concatenation of the start histories
with the new samples, with the oldest elements dropped so that at most
`MAX_HISTORY` remain. -/
theorem historyRunFrom_eq (ticks : List (ℚ × ℚ)) (d t : List ℚ)
    (hlen : d.length = t.length) (hcap : d.length ≤ MAX_HISTORY) :
    historyRunFrom (d, t) ticks =
      ((d ++ ticks.map Prod.fst).drop (d.length + ticks.length - MAX_HISTORY),
       (t ++ ticks.map Prod.snd).drop (d.length + ticks.length - MAX_HISTORY)) := by
  induction ticks generalizing d t with
  | nil =>
    have h0 : d.length - MAX_HISTORY = 0 := by omega
    simp [historyRunFrom, h0]
  | cons x rest ih =>
    simp only [historyRunFrom]
    by_cases hfull : MAX_HISTORY < (d ++ [x.1]).length
    · have hd : d.length = MAX_HISTORY := by
        simp only [List.length_append, List.length_singleton] at hfull
        omega
      have hpush : pushHistory d t x.1 x.2 =
          ((d ++ [x.1]).drop 1, (t ++ [x.2]).drop 1) := by
        simp only [pushHistory]
        rw [if_pos hfull]
      have hlen2 : ((d ++ [x.1]).drop 1).length = ((t ++ [x.2]).drop 1).length := by
        simp [List.length_drop, List.length_append, hlen]
      have hcap2 : ((d ++ [x.1]).drop 1).length ≤ MAX_HISTORY := by
        simp [List.length_drop, List.length_append, hd]
      rw [hpush, ih _ _ hlen2 hcap2]
      simp only [Prod.mk.injEq, List.length_cons, List.map_cons]
      constructor
      · have h := drop_shift_eq d x.1 (rest.map Prod.fst) hd
        simp only [List.length_map] at h
        exact h
      · have h := drop_shift_eq t x.2 (rest.map Prod.snd) (by omega)
        simp only [List.length_map] at h
        rw [hlen2, h]
        have hidx : t.length + (rest.length + 1) - MAX_HISTORY
            = d.length + (rest.length + 1) - MAX_HISTORY := by omega
        rw [hidx]
    · have hpush : pushHistory d t x.1 x.2 = (d ++ [x.1], t ++ [x.2]) := by
        simp only [pushHistory]
        rw [if_neg hfull]
      have hlen2 : (d ++ [x.1]).length = (t ++ [x.2]).length := by
        simp [List.length_append, hlen]
      have hcap2 : (d ++ [x.1]).length ≤ MAX_HISTORY := by
        simp only [List.length_append, List.length_singleton] at hfull ⊢
        omega
      rw [hpush, ih _ _ hlen2 hcap2]
      have hK : (d ++ [x.1]).length + rest.length - MAX_HISTORY
          = d.length + (x :: rest).length - MAX_HISTORY := by
        simp only [List.length_append, List.length_singleton, List.length_cons,
          List.length_nil]
        omega
      have hL1 : (d ++ [x.1]) ++ rest.map Prod.fst = d ++ (x :: rest).map Prod.fst := by
        simp
      have hL2 : (t ++ [x.2]) ++ rest.map Prod.snd = t ++ (x :: rest).map Prod.snd := by
        simp
      rw [hK, hL1, hL2]

/-- C9: after any tick sequence, the dBFS history and the timestamp
history have equal length, that length never exceeds `MAX_HISTORY = 120`,
and each history is exactly the most recent samples in order — the
original sequence with its oldest elements evicted. -/
theorem C9_history_bounded (ticks : List (ℚ × ℚ)) :
    (historyRun ticks).1.length = (historyRun ticks).2.length ∧
    (historyRun ticks).1.length ≤ MAX_HISTORY ∧
    (historyRun ticks).1 = (ticks.map Prod.fst).drop (ticks.length - MAX_HISTORY) ∧
    (historyRun ticks).2 = (ticks.map Prod.snd).drop (ticks.length - MAX_HISTORY) := by
  have h := historyRunFrom_eq ticks [] [] rfl (by simp)
  simp only [List.nil_append, List.length_nil, Nat.zero_add] at h
  rw [historyRun, h]
  refine ⟨?_, ?_, rfl, rfl⟩
  · simp [List.length_drop, List.length_map]
  · simp only [List.length_drop, List.length_map]
    omega

/-- C4 counterexample: a call whose connectivity probe returns HTTP 200
but whose three SMTP delivery attempts all fail returns failure, yet
leaves no failure flag on disk — so a flag does not exist after every
failed send. -/
theorem C4_counterexample :
    (send_email ⟨NetCheck.status 200, "2024-01-01 00:00:00", true,
        [false, false, false], ["ops@example.com"]⟩ "ALERT" "body" none).success
      = false ∧
    (send_email ⟨NetCheck.status 200, "2024-01-01 00:00:00", true,
        [false, false, false], ["ops@example.com"]⟩ "ALERT" "body" none).flag
      = none := by
  exact ⟨by decide, by decide⟩

/-- C4 amended: when the connectivity probe raises an exception,
`send_email` persists a failure flag carrying the exception text and
timestamp and returns failure without sending anything.  When the probe
returns HTTP 200 the call ends with no flag on disk — the pre-existing
flag, if any, is removed even when delivery then fails at the SMTP
stage — and when a flag existed and the recovery-notice SMTP send
succeeds, the recovery notice referencing the prior failure precedes
the requested message.  When the probe returns a non-200 response
without raising, the flag on disk is left exactly as it was, no
recovery notice is sent, and delivery is still attempted (the requested
message is sent exactly when the call succeeds). -/
theorem C4_failure_flag_lifecycle (env : NetEnv) (subject body : String)
    (flag : Option FailureFlag) :
    (∀ reason, env.check = NetCheck.raised reason →
       (send_email env subject body flag).success = false ∧
       (send_email env subject body flag).flag = some ⟨reason, env.now⟩ ∧
       (send_email env subject body flag).sentMails = []) ∧
    (env.check = NetCheck.status 200 →
       (send_email env subject body flag).flag = none) ∧
    (∀ prev : FailureFlag, env.check = NetCheck.status 200 → flag = some prev →
       env.noticeSendOk = true →
       (send_email env subject body flag).sentMails =
         Mail.recoveryNotice prev.reason prev.timestamp ::
           (if (send_email env subject body flag).success = true
            then [Mail.message subject body] else [])) ∧
    (∀ code, env.check = NetCheck.status code → code ≠ 200 →
       (send_email env subject body flag).flag = flag ∧
       (send_email env subject body flag).sentMails =
         (if (send_email env subject body flag).success = true
          then [Mail.message subject body] else [])) := by
  refine ⟨?_, ?_, ?_, ?_⟩
  · intro reason h
    simp [send_email, h]
  · intro h
    simp only [send_email, h]
    have hgen : ∀ (nm : List Mail) (rc : List String) (fa : Option FailureFlag),
        (if rc = [] then
           ({ success := false, flag := fa, sentMails := nm } : SendResult)
         else if (env.sendAttemptsOk.take 3).any id then
           { success := true, flag := fa,
             sentMails := nm ++ [Mail.message subject body] }
         else { success := false, flag := fa, sentMails := nm }).flag = fa := by
      intro nm rc fa
      split_ifs <;> rfl
    exact hgen _ _ _
  · intro prev h hflag hnot
    subst hflag
    simp only [send_email, h, hnot]
    split_ifs <;> simp_all
  · intro code h hne
    have hbeq : (code == 200) = false := by simp [hne]
    simp only [send_email, h, hbeq]
    split_ifs <;> simp_all

/-- C4 witness: a 200-checked call with an existing flag removes the
flag and sends the recovery notice before the requested message; a
503-checked call with an existing flag leaves the flag in place, sends
no notice, and still attempts (here: achieves) delivery. -/
theorem C4_failure_flag_lifecycle_witness :
    ((send_email ⟨NetCheck.status 200, "t1", true, [true], ["a"]⟩ "s" "b"
        (some ⟨"r", "ts"⟩)).flag = none ∧
     (send_email ⟨NetCheck.status 200, "t1", true, [true], ["a"]⟩ "s" "b"
        (some ⟨"r", "ts"⟩)).sentMails =
      Mail.recoveryNotice "r" "ts" ::
        (if (send_email ⟨NetCheck.status 200, "t1", true, [true], ["a"]⟩ "s" "b"
              (some ⟨"r", "ts"⟩)).success = true
         then [Mail.message "s" "b"] else [])) ∧
    ((send_email ⟨NetCheck.status 503, "t1", true, [true], ["a"]⟩ "s" "b"
        (some ⟨"r", "ts"⟩)).flag = some ⟨"r", "ts"⟩ ∧
     (send_email ⟨NetCheck.status 503, "t1", true, [true], ["a"]⟩ "s" "b"
        (some ⟨"r", "ts"⟩)).sentMails =
      (if (send_email ⟨NetCheck.status 503, "t1", true, [true], ["a"]⟩ "s" "b"
            (some ⟨"r", "ts"⟩)).success = true
       then [Mail.message "s" "b"] else [])) :=
  ⟨⟨(C4_failure_flag_lifecycle ⟨NetCheck.status 200, "t1", true, [true], ["a"]⟩
       "s" "b" (some ⟨"r", "ts"⟩)).2.1 rfl,
    (C4_failure_flag_lifecycle ⟨NetCheck.status 200, "t1", true, [true], ["a"]⟩
       "s" "b" (some ⟨"r", "ts"⟩)).2.2.1 ⟨"r", "ts"⟩ rfl rfl rfl⟩,
   (C4_failure_flag_lifecycle ⟨NetCheck.status 503, "t1", true, [true], ["a"]⟩
       "s" "b" (some ⟨"r", "ts"⟩)).2.2.2 503 rfl (by decide)⟩

/-- The head of a `dropWhile` result fails the predicate. -/
theorem head?_dropWhile_false {α : Type} (q : α → Bool) (l : List α) (c : α)
    (h : (l.dropWhile q).head? = some c) : q c = false := by
  induction l with
  | nil => simp [List.dropWhile] at h
  | cons a l ih =>
    rw [List.dropWhile_cons] at h
    by_cases ha : q a
    · rw [if_pos ha] at h
      exact ih h
    · rw [if_neg ha] at h
      simp only [List.head?_cons, Option.some.injEq] at h
      subst h
      simpa using ha

/-- A list whose head fails the predicate is unchanged by `dropWhile`. -/
theorem dropWhile_eq_self_of_head {α : Type} (q : α → Bool) (l : List α)
    (h : ∀ c, l.head? = some c → q c = false) : l.dropWhile q = l := by
  cases l with
  | nil => rfl
  | cons a l =>
    rw [List.dropWhile_cons, if_neg (by simp [h a rfl])]

/-- `dropWhile` is a `drop`. -/
theorem dropWhile_eq_drop {α : Type} (q : α → Bool) (l : List α) :
    ∃ n, l.dropWhile q = l.drop n := by
  induction l with
  | nil => exact ⟨0, rfl⟩
  | cons a l ih =>
    by_cases ha : q a
    · obtain ⟨n, hn⟩ := ih
      refine ⟨n + 1, ?_⟩
      rw [List.dropWhile_cons, if_pos ha, hn]
      rfl
    · exact ⟨0, by rw [List.dropWhile_cons, if_neg ha]; rfl⟩

/-- Stripping from the right end preserves the head. -/
theorem head?_rstrip {α : Type} (q : α → Bool) (l : List α) (c : α)
    (h : ((l.reverse.dropWhile q).reverse).head? = some c) : l.head? = some c := by
  obtain ⟨n, hn⟩ := dropWhile_eq_drop q l.reverse
  rw [hn, List.reverse_drop, List.reverse_reverse] at h
  by_cases hm : l.reverse.length - n = 0
  · rw [hm] at h
    simp at h
  · rwa [List.head?_take, if_neg hm] at h

/-- The head of a stripped line is not whitespace. -/
theorem pyStrip_head (l : List Char) (c : Char)
    (h : (pyStrip l).head? = some c) : isPySpace c = false :=
  head?_dropWhile_false isPySpace l c
    (head?_rstrip isPySpace (l.dropWhile isPySpace) c h)

/-- Python `str.strip()` is idempotent. -/
theorem pyStrip_idem (l : List Char) : pyStrip (pyStrip l) = pyStrip l := by
  have step1 : (pyStrip l).dropWhile isPySpace = pyStrip l :=
    dropWhile_eq_self_of_head isPySpace (pyStrip l) (fun c hc => pyStrip_head l c hc)
  show (((pyStrip l).dropWhile isPySpace).reverse.dropWhile isPySpace).reverse
      = pyStrip l
  rw [step1]
  show (((((l.dropWhile isPySpace).reverse.dropWhile
      isPySpace).reverse).reverse).dropWhile isPySpace).reverse = pyStrip l
  rw [List.reverse_reverse, List.dropWhile_idempotent]
  rfl

/-- Stripping only removes characters. -/
theorem pyStrip_subset (l : List Char) (c : Char) (hc : c ∈ pyStrip l) :
    c ∈ l := by
  unfold pyStrip at hc
  rw [List.mem_reverse] at hc
  obtain ⟨n, hn⟩ := dropWhile_eq_drop isPySpace (l.dropWhile isPySpace).reverse
  rw [hn] at hc
  have hc2 := List.drop_subset _ _ hc
  rw [List.mem_reverse] at hc2
  obtain ⟨m, hm⟩ := dropWhile_eq_drop isPySpace l
  rw [hm] at hc2
  exact List.drop_subset _ _ hc2

set_option maxHeartbeats 2000000 in
/-- Evaluation of `splitLinesCh` on a non-line-break head. -/
theorem splitLinesCh_cons_not_lb (c : Char) (w : List Char)
    (hc : isLineBreak c = false) :
    splitLinesCh (c :: w) = consHead c (splitLinesCh w) := by
  have hr : c ≠ '\r' := by
    intro h
    rw [h] at hc
    simp [isLineBreak] at hc
  rw [splitLinesCh.eq_def]
  split
  · simp_all
  · rename_i rest heq
    exact absurd (List.cons.inj heq).1 hr
  · rename_i c' rest hside heq
    obtain ⟨h1, h2⟩ := List.cons.inj heq
    subst h1
    subst h2
    rw [if_neg (by simp [hc])]

/-- Evaluation of `splitLinesCh` on a line-break head that does not start
a `"\r\n"` pair. -/
theorem splitLinesCh_cons_lb (c : Char) (w : List Char)
    (hside : ∀ w', c = '\r' → w = '\n' :: w' → False)
    (hc : isLineBreak c = true) :
    splitLinesCh (c :: w) = [] :: splitLinesCh w := by
  rw [splitLinesCh.eq_def]
  split
  · simp_all
  · rename_i rest heq
    obtain ⟨h1, h2⟩ := List.cons.inj heq
    exact (hside rest h1 h2).elim
  · rename_i c' rest hside' heq
    obtain ⟨h1, h2⟩ := List.cons.inj heq
    subst h1
    subst h2
    rw [if_pos hc]

/-- No line of a `splitLinesCh` result contains a line-break character. -/
theorem splitLinesCh_no_lb (cs : List Char) :
    ∀ m ∈ splitLinesCh cs, ∀ c ∈ m, isLineBreak c = false := by
  induction cs using splitLinesCh.induct with
  | case1 =>
    intro m hm
    simp [splitLinesCh] at hm
  | case2 rest ih =>
    intro m hm c hc
    rw [show splitLinesCh ('\r' :: '\n' :: rest) = [] :: splitLinesCh rest
      from rfl] at hm
    rcases List.mem_cons.mp hm with h | h
    · subst h
      simp at hc
    · exact ih m h c hc
  | case3 c0 rest hside hlb ih =>
    intro m hm c hc
    rw [splitLinesCh_cons_lb c0 rest (fun w' h1 h2 => hside w' h1 h2) hlb] at hm
    rcases List.mem_cons.mp hm with h | h
    · subst h
      simp at hc
    · exact ih m h c hc
  | case4 c0 rest hside hlb ih =>
    intro m hm c hc
    rw [splitLinesCh_cons_not_lb c0 rest (by simpa using hlb)] at hm
    cases heq : splitLinesCh rest with
    | nil =>
      rw [heq] at hm
      simp only [consHead] at hm
      rcases List.mem_cons.mp hm with h | h
      · subst h
        rcases List.mem_cons.mp hc with h' | h'
        · subst h'
          simpa using hlb
        · simp at h'
      · simp at h
    | cons l ls =>
      rw [heq] at hm
      simp only [consHead] at hm
      rcases List.mem_cons.mp hm with h | h
      · subst h
        rcases List.mem_cons.mp hc with h' | h'
        · subst h'
          simpa using hlb
        · exact ih l (by rw [heq]; exact List.mem_cons_self l ls) c h'
      · exact ih m (by rw [heq]; exact List.mem_cons_of_mem l h) c hc

/-- Splitting a line-break-free non-empty line yields just that line. -/
theorem splitLinesCh_single (l : List Char)
    (h : ∀ c ∈ l, isLineBreak c = false) (hne : l ≠ []) :
    splitLinesCh l = [l] := by
  induction l with
  | nil => exact absurd rfl hne
  | cons a l ih =>
    have ha : isLineBreak a = false := h a (List.mem_cons_self a l)
    rw [splitLinesCh_cons_not_lb a l ha]
    cases l with
    | nil => rfl
    | cons b l' =>
      rw [ih (fun c hc => h c (List.mem_cons_of_mem a hc)) (by simp)]
      rfl

/-- Splitting after appending a newline and a tail: the line-break-free
prefix becomes the first line. -/
theorem splitLinesCh_append_nl (l cs : List Char)
    (h : ∀ c ∈ l, isLineBreak c = false) :
    splitLinesCh (l ++ '\n' :: cs) = l :: splitLinesCh cs := by
  induction l with
  | nil => rfl
  | cons a l ih =>
    have ha : isLineBreak a = false := h a (List.mem_cons_self a l)
    rw [List.cons_append, splitLinesCh_cons_not_lb a _ ha,
      ih (fun c hc => h c (List.mem_cons_of_mem a hc))]
    rfl

/-- `splitLinesCh` is a left inverse of `joinNL` on lists of non-empty
line-break-free lines. -/
theorem splitLinesCh_joinNL (L : List (List Char))
    (h : ∀ l ∈ L, (∀ c ∈ l, isLineBreak c = false) ∧ l ≠ []) :
    splitLinesCh (joinNL L) = L := by
  induction L with
  | nil => rfl
  | cons l L' ih =>
    cases L' with
    | nil =>
      exact splitLinesCh_single l (h l (by simp)).1 (h l (by simp)).2
    | cons m L'' =>
      rw [show joinNL (l :: m :: L'') = l ++ '\n' :: joinNL (m :: L'') from rfl,
        splitLinesCh_append_nl l _ (h l (by simp)).1,
        ih (fun x hx => h x (List.mem_cons_of_mem l hx))]

/-- `cleanCh` is the identity on joins of at most 400 non-empty,
line-break-free, already-stripped lines. -/
theorem cleanCh_fixed (K : List (List Char))
    (h : ∀ l ∈ K, (∀ c ∈ l, isLineBreak c = false) ∧ l ≠ [] ∧ pyStrip l = l)
    (hlen : K.length ≤ 400) : cleanCh (joinNL K) = joinNL K := by
  simp only [cleanCh]
  rw [splitLinesCh_joinNL K (fun l hl => ⟨(h l hl).1, (h l hl).2.1⟩)]
  have hmap : K.map pyStrip = K := by
    have hcg : ∀ l ∈ K, pyStrip l = id l := fun l hl => (h l hl).2.2
    rw [List.map_congr_left hcg]
    exact List.map_id K
  rw [hmap]
  have hfil : K.filter (fun l => !l.isEmpty) = K :=
    List.filter_eq_self.mpr (fun l hl => by
      have hne := (h l hl).2.1
      cases l with
      | nil => exact absurd rfl hne
      | cons a m => rfl)
  rw [hfil]
  have h0 : K.length - 400 = 0 := by omega
  rw [h0, List.drop_zero]

/-- `cleanCh` is idempotent. -/
theorem cleanCh_idem (cs : List Char) : cleanCh (cleanCh cs) = cleanCh cs := by
  have hexp : cleanCh cs =
      joinNL (((((splitLinesCh cs).map pyStrip).filter
          (fun l => !l.isEmpty))).drop
        ((((splitLinesCh cs).map pyStrip).filter
          (fun l => !l.isEmpty)).length - 400)) := by
    simp only [cleanCh]
  have hmem : ∀ l ∈ ((((splitLinesCh cs).map pyStrip).filter
        (fun l => !l.isEmpty))).drop
        ((((splitLinesCh cs).map pyStrip).filter
          (fun l => !l.isEmpty)).length - 400),
      (∀ c ∈ l, isLineBreak c = false) ∧ l ≠ [] ∧ pyStrip l = l := by
    intro l hl
    have hl2 := List.drop_subset _ _ hl
    rw [List.mem_filter] at hl2
    obtain ⟨hmap, hne⟩ := hl2
    rw [List.mem_map] at hmap
    obtain ⟨m, hm, rfl⟩ := hmap
    refine ⟨?_, ?_, pyStrip_idem m⟩
    · intro c hc
      exact splitLinesCh_no_lb cs m hm c (pyStrip_subset m c hc)
    · intro hnil
      rw [hnil] at hne
      simp at hne
  have hlen : (((((splitLinesCh cs).map pyStrip).filter
        (fun l => !l.isEmpty))).drop
        ((((splitLinesCh cs).map pyStrip).filter
          (fun l => !l.isEmpty)).length - 400)).length ≤ 400 := by
    rw [List.length_drop]
    omega
  rw [hexp]
  exact cleanCh_fixed _ hmem hlen

set_option maxRecDepth 10000 in
/-- C10: `clean_logs` is idempotent — one application already yields at
most 400 non-empty stripped lines joined by single newlines, which a
second application leaves unchanged. -/
theorem C10_clean_logs_idempotent (s : String) :
    clean_logs (clean_logs s) = clean_logs s := by
  show String.mk (cleanCh (String.mk (cleanCh s.data)).data)
      = String.mk (cleanCh s.data)
  rw [show (String.mk (cleanCh s.data)).data = cleanCh s.data from rfl,
    cleanCh_idem]

/-- Joining with the empty string prepended changes nothing. -/
theorem join_cons_str (a : String) (l : List String) :
    String.join (a :: l) = a ++ String.join l := by
  simp [String.join_eq]
  rfl

/-- A line whose strip is empty renders as no row at all. -/
theorem format_line_strip_empty (line : String) (i : Nat)
    (h : pyStripStr line = "") : format_line line i = "" := by
  unfold format_line
  rw [if_pos h]

/-- Dropping empty-stripped lines before joining the rendered rows is
unnecessary: such lines render to the empty string anyway. -/
theorem join_rows_filterMap_eq_map (L : List (Nat × String)) :
    String.join (L.filterMap (fun p =>
        if pyStripStr p.2 = "" then none else some (format_line p.2 p.1))) =
      String.join (L.map (fun p => format_line p.2 p.1)) := by
  induction L with
  | nil => rfl
  | cons p L' ih =>
    rw [List.filterMap_cons, List.map_cons]
    by_cases h : pyStripStr p.2 = ""
    · rw [if_pos h, join_cons_str, format_line_strip_empty p.2 p.1 h, ih]
      simp
    · rw [if_neg h, join_cons_str, join_cons_str, ih]

/-- C8 counterexample: the non-empty line `"Still silent as of 12:00"` at
a non-zero index contains `':'` and does not start with a URL-like
token, yet it is rendered as a row spanning both columns rather than
split into a label/value pair; and in the body `"\nCity: Gaza"` the
first non-empty line is rendered as a label/value pair, not as a
headline row, because the headline index is counted over all lines
including the leading empty one. -/
theorem C8_counterexample :
    (containsChar "Still silent as of 12:00" ':' = true ∧
     startsWithStr "Still silent as of 12:00" "http" = false ∧
     format_line "Still silent as of 12:00" 1 =
       spanRow "Still silent as of 12:00" ∧
     format_line "Still silent as of 12:00" 1 ≠
       labelValueRow "Still silent as of 12" "00") ∧
    (renderBodyRows "\nCity: Gaza" = labelValueRow "City" "Gaza" ∧
     renderBodyRows "\nCity: Gaza" ≠ headlineRow "City: Gaza") := by
  refine ⟨⟨by decide, by decide, by decide, by decide⟩, by decide, by decide⟩

set_option maxRecDepth 10000 in
/-- Stripping a `String` is idempotent. -/
theorem pyStripStr_idem (s : String) :
    pyStripStr (pyStripStr s) = pyStripStr s := by
  show String.mk (pyStrip (String.mk (pyStrip s.data)).data)
      = String.mk (pyStrip s.data)
  rw [show (String.mk (pyStrip s.data)).data = pyStrip s.data from rfl,
    pyStrip_idem]

/-- C8 amended: the full rendered table ignores the strip-and-filter on
empty lines (they render to nothing anyway); the line at index 0 of the
body — indices counted over all lines, empty ones included — renders as
the headline row when non-empty; a non-empty line at a later index spans
both columns when its lowercased strip starts with `"still silent"`,
even if it contains `':'`; otherwise it splits at the first `':'` into a
bold label cell and a value cell when it contains `':'` and does not
start with `"http"`; all remaining non-empty lines span both columns. -/
theorem C8_body_table_rendering (body line : String) (i : Nat) :
    (renderBodyRows body =
      String.join (((pySplitLinesStr body).enum).map
        (fun p => format_line p.2 p.1))) ∧
    (pyStripStr line = "" → format_line line i = "") ∧
    (pyStripStr line ≠ "" → i = 0 →
      format_line line i = headlineRow (pyStripStr line)) ∧
    (pyStripStr line ≠ "" → i ≠ 0 →
      startsWithStr (lowerStr (pyStripStr line)) "still silent" = true →
      format_line line i = spanRow (pyStripStr line)) ∧
    (pyStripStr line ≠ "" → i ≠ 0 →
      startsWithStr (lowerStr (pyStripStr line)) "still silent" = false →
      containsChar (pyStripStr line) ':' = true →
      startsWithStr (pyStripStr line) "http" = false →
      format_line line i =
        labelValueRow (pyStripStr (beforeColon (pyStripStr line)))
          (pyStripStr (afterColon (pyStripStr line)))) ∧
    (pyStripStr line ≠ "" → i ≠ 0 →
      startsWithStr (lowerStr (pyStripStr line)) "still silent" = false →
      (containsChar (pyStripStr line) ':' = false ∨
       startsWithStr (pyStripStr line) "http" = true) →
      format_line line i = spanRow (pyStripStr line)) := by
  refine ⟨join_rows_filterMap_eq_map _, ?_, ?_, ?_, ?_, ?_⟩
  · intro h
    exact format_line_strip_empty line i h
  · intro hne hi
    unfold format_line
    rw [if_neg hne, if_pos hi]
  · intro hne hi hss
    unfold format_line
    rw [if_neg hne, if_neg hi, if_pos hss]
  · intro hne hi hss hcol hhttp
    unfold format_line
    rw [if_neg hne, if_neg hi, if_neg (by simp [hss]),
      if_pos ⟨hcol, by rw [pyStripStr_idem]; simp [hhttp]⟩]
  · intro hne hi hss hrest
    unfold format_line
    rw [if_neg hne, if_neg hi, if_neg (by simp [hss]), if_neg]
    rw [pyStripStr_idem]
    rcases hrest with h | h
    · simp [h]
    · simp [h]

/-- C8 witness for the amended statement: the body `"A\nCity: Gaza"`
rendered in full, and the label/value split of `"City: Gaza"` at index
1. -/
theorem C8_body_table_rendering_witness :
    (renderBodyRows "A\nCity: Gaza" =
      String.join ((((pySplitLinesStr "A\nCity: Gaza")).enum).map
        (fun p => format_line p.2 p.1))) ∧
    format_line "City: Gaza" 1 =
      labelValueRow (pyStripStr (beforeColon (pyStripStr "City: Gaza")))
        (pyStripStr (afterColon (pyStripStr "City: Gaza"))) :=
  ⟨(C8_body_table_rendering "A\nCity: Gaza" "City: Gaza" 1).1,
   (C8_body_table_rendering "A\nCity: Gaza" "City: Gaza" 1).2.2.2.2.1
     (by decide) (by decide) (by decide) (by decide) (by decide)⟩
